import Mathlib

set_option maxHeartbeats 1000000

/- Verification of the core of procps w.c: the best-process selector
   (find_best_proc) and the remote-endpoint formatters (print_host,
   print_display_or_interface, print_from).  Bytes are modelled as Nat
   (values 0..255), C ints as Int, unsigned long long counters as Nat. -/

/-- Printable byte in the C locale, as tested by isprint: ASCII 0x20..0x7E. -/
def isprintB (b : Nat) : Bool := 32 ≤ b && b ≤ 126

/-- MAX_CMD_WIDTH from w.c line 95. -/
def MAX_CMD_WIDTH : Nat := 512

/-- Logical effect of strncpy(cmdline, src, MAX_CMD_WIDTH): the stored C
string is the source up to its first NUL byte, truncated to MAX_CMD_WIDTH
bytes (w.c lines 488, 500, 513). -/
def strncpyCmd (s : List Nat) : List Nat :=
  (s.takeWhile (fun b => b ≠ 0)).take MAX_CMD_WIDTH

/-- The copy loop of print_host (w.c lines 111-121): walk at most l bytes,
stopping at the first NUL (emitting nothing for it); a printable non-space
byte is copied; any other byte is replaced by one dash (45) and stops the
loop. -/
def phCopy : List Nat → Int → List Nat
  | [], _ => []
  | b :: rest, l =>
    if l ≤ 0 then []
    else if b = 0 then []
    else if isprintB b ∧ b ≠ 32 then b :: phCopy rest (l - 1)
    else [45]

/-- print_host from w.c lines 103-133: clip len to fromlen, run the copy
loop, emit one dash if nothing was copied, then pad with spaces (32) up to
fromlen. -/
def print_host (host : List Nat) (len fromlen : Int) : List Nat :=
  let l := if len > fromlen then fromlen else len
  let emitted := phCopy host l
  let emitted2 := if emitted.length = 0 then [45] else emitted
  emitted2 ++ List.replicate (fromlen - emitted2.length).toNat 32

/-- The pointer-advance loop of print_display_or_interface, pattern
while (pos < end and byte ≠ target and isprint byte) pos++:
number of bytes skipped before stopping. -/
def scanSkip (t : Nat) : List Nat → Nat
  | [] => 0
  | b :: rest => if b = t ∨ ¬ isprintB b then 0 else scanSkip t rest + 1

/-- The same pointer-advance loop, returning the suffix of the input at
which it stopped (empty when it ran to the end). -/
def scanRest (t : Nat) : List Nat → List Nat
  | [] => []
  | b :: rest => if b = t ∨ ¬ isprintB b then b :: rest else scanRest t rest

/-- The print loop of print_display_or_interface (w.c lines 163-171 and
187-195): while (l > 0 and printable and not space) emit the byte; when the
loop stops with l > 0 at a byte that is not NUL, emit one dash (45). -/
def truncDash : List Nat → Int → List Nat
  | [], _ => []
  | b :: rest, l =>
    if l ≤ 0 then []
    else if isprintB b ∧ b ≠ 32 then b :: truncDash rest (l - 1)
    else if b ≠ 0 then [45] else []

/-- print_display_or_interface from w.c lines 137-205.  Scans the first
len bytes of host for a colon (58); if one is found and no second colon
follows, the emission starts at that first colon (X11 display case); if a
second colon follows and then a percent (37), the emission starts at the
percent (IPv6 interface case).  The emitted segment is produced by the
truncate/dash loop limited by min(bytes to end of field, restlen), and the
output is padded with spaces (32) to restlen in all cases. -/
def pdiBody (hs : List Nat) (len restlen : Int) : List Nat :=
  if (scanRest 58 hs).head? = some 58 then
    if (scanRest 58 (scanRest 58 hs).tail).head? = some 58 then
      if (scanRest 37 (scanRest 58 (scanRest 58 hs).tail)).head? = some 37 then
        truncDash (scanRest 37 (scanRest 58 (scanRest 58 hs).tail))
          (if len - (scanSkip 58 hs + 1 + scanSkip 58 (scanRest 58 hs).tail
                + scanSkip 37 (scanRest 58 (scanRest 58 hs).tail) : Int) > restlen
           then restlen
           else len - (scanSkip 58 hs + 1 + scanSkip 58 (scanRest 58 hs).tail
                + scanSkip 37 (scanRest 58 (scanRest 58 hs).tail) : Int))
      else []
    else
      truncDash (scanRest 58 hs)
        (if len - (scanSkip 58 hs : Int) > restlen then restlen
         else len - (scanSkip 58 hs : Int))
  else []

/-- print_display_or_interface, full routine: nothing at all for a
non-positive rest width (w.c line 142); otherwise the body followed by
space padding up to restlen (w.c lines 200-204). -/
def pdi (host : List Nat) (len restlen : Int) : List Nat :=
  if restlen ≤ 0 then []
  else pdiBody (host.take len.toNat) len restlen
    ++ List.replicate
        (restlen - (pdiBody (host.take len.toNat) len restlen).length).toNat 32

/-- print_from from w.c lines 209-280 on the numeric-address path (the
utmp record present).  The argument conv abstracts the text written by the
external inet_ntop conversion of the (possibly v4-mapped-canonicalized)
address bytes: an arbitrary byte string, empty or NUL-leading when the
conversion failed.  The buffer handling (strncpy clipped to fromlen and
forced NUL at index fromlen, w.c lines 253-263) makes the printed address
text the conversion text up to its first NUL, truncated to fromlen. -/
def print_from (ipAddresses : Bool) (conv : List Nat) (ut_host : List Nat)
    (hostSize fromlen : Int) : List Nat :=
  if ipAddresses then
    let buf := (conv.take fromlen.toNat).takeWhile (fun b => b ≠ 0)
    if buf.length ≠ 0 then buf ++ pdi ut_host hostSize (fromlen - buf.length)
    else print_host ut_host hostSize fromlen
  else print_host ut_host hostSize fromlen

/-- One row of the system-wide process snapshot, the items fetched by
cache_pids (w.c lines 393-403). -/
structure ProcRec where
  pid : Int
  tgid : Int
  start : Nat
  euid : Nat
  ruid : Nat
  tpgid : Int
  pgrp : Int
  tty : Int
  tics : Nat
  cmdline : List Nat
deriving Repr, DecidableEq

/-- Ghost tag recording which branch of find_best_proc last wrote the
candidate fields (pid, pcpu, cmdline); it does not alter any computed
value. -/
inductive CandWriter
  | unset
  | leaderSeed
  | interim
  | fgFilter
deriving Repr, DecidableEq

/-- State carried through the find_best_proc loop: the found_utpid flag,
best_time, secondbest_time, the two cpu counters (jcpu holds the value of
the wrapping 64-bit accumulator, kept below U64 by every update), and the
candidate fields living in the caller (pid, cmdline).  writer is ghost
instrumentation only. -/
structure FBState where
  found : Bool
  best : Nat
  secondbest : Nat
  jcpu : Nat
  pcpu : Nat
  pid : Int
  cmdline : List Nat
  writer : CandWriter
deriving Repr, DecidableEq

/-- Leader detection, w.c lines 483-493: on tgid = ut_pid set found_utpid,
and when best_time is still 0 seed the candidate from this record. -/
def leaderStage (utPid : Int) (p : ProcRec) (s : FBState) : FBState :=
  if p.tgid = utPid then
    if s.best = 0 then
      { s with found := true, best := p.start, cmdline := strncpyCmd p.cmdline,
               pid := p.pid, pcpu := p.tics, writer := CandWriter.leaderSeed }
    else { s with found := true }
  else s

/-- Interim promotion, w.c lines 497-504: when not (secondbest_time ≠ 0 and
start ≤ secondbest_time), write secondbest_time := start, and when the
candidate command line is still the placeholder "-" copy the candidate
fields from this record. -/
def interimStage (p : ProcRec) (s : FBState) : FBState :=
  if ¬ (s.secondbest ≠ 0 ∧ p.start ≤ s.secondbest) then
    let s1 := { s with secondbest := p.start }
    if s1.cmdline = [45] then
      { s1 with cmdline := strncpyCmd p.cmdline, pid := p.pid, pcpu := p.tics,
                writer := CandWriter.interim }
    else s1
  else s

/-- Foreground candidacy filter and promotion, w.c lines 505-515. -/
def filterStage (ignoreuser : Bool) (uid : Nat) (p : ProcRec) (s : FBState) : FBState :=
  if (ignoreuser = false ∧ uid ≠ p.euid ∧ uid ≠ p.ruid)
      ∨ p.pgrp ≠ p.tpgid ∨ p.start ≤ s.best then s
  else
    { s with best := p.start, cmdline := strncpyCmd p.cmdline, pid := p.pid,
             pcpu := p.tics, writer := CandWriter.fgFilter }

/-- Modulus of the unsigned long long jcpu accumulator: 2 to the 64. -/
def U64 : Nat := 18446744073709551616

/-- Body of the loop of find_best_proc, w.c lines 482-516: leader
detection, then skip records whose controlling tty differs from the
session device, then jcpu accumulation — a 64-bit unsigned addition, so
the sum wraps modulo U64 — then interim promotion and the foreground
filter. -/
def fbStep (ignoreuser : Bool) (uid : Nat) (utPid ttyDev : Int)
    (s : FBState) (p : ProcRec) : FBState :=
  let s1 := leaderStage utPid p s
  if p.tty ≠ ttyDev then s1
  else filterStage ignoreuser uid p
    (interimStage p { s1 with jcpu := (s1.jcpu + p.tics) % U64 })

/-- Initial state: jcpu and pcpu zeroed inside find_best_proc (w.c lines
449-450), the candidate buffer and pid initialized by the caller showinfo
(w.c lines 555-558) to "-" and -1, best_time and secondbest_time zero. -/
def fbInit : FBState :=
  { found := false, best := 0, secondbest := 0, jcpu := 0, pcpu := 0,
    pid := -1, cmdline := [45], writer := CandWriter.unset }

/-- find_best_proc, w.c lines 421-522, with the caller-side initialization
folded in.  uidOpt models the uid resolution of w.c lines 451-469
(getpwnam or sd_session_get_uid): when the user filter is on and the uid
could not be resolved, the function returns 0 at once leaving the initial
state; the value 4294967295 is the ~0U default that is never consulted
when ignoreuser is set. -/
def findBestProc (ignoreuser : Bool) (uidOpt : Option Nat) (utPid ttyDev : Int)
    (snapshot : List ProcRec) : FBState :=
  if ignoreuser = false ∧ uidOpt = none then fbInit
  else snapshot.foldl (fbStep ignoreuser (uidOpt.getD 4294967295) utPid ttyDev) fbInit

/-- Emission decision of showinfo, w.c lines 587-598: the session line is
printed iff find_best_proc returned nonzero (the leader was found); on 0
showinfo returns at once and prints nothing for the session. -/
def showinfoEmits (ignoreuser : Bool) (uidOpt : Option Nat) (utPid ttyDev : Int)
    (snapshot : List ProcRec) : Bool :=
  (findBestProc ignoreuser uidOpt utPid ttyDev snapshot).found

/- Helper lemmas about the formatters. -/

lemma phCopy_nonpos (host : List Nat) (l : Int) (h : l ≤ 0) : phCopy host l = [] := by
  cases host with
  | nil => rfl
  | cons b rest => simp [phCopy, h]

lemma phCopy_length_le (host : List Nat) (l : Int) : (phCopy host l).length ≤ l.toNat := by
  induction host generalizing l with
  | nil => simp [phCopy]
  | cons b rest ih =>
    simp only [phCopy]
    split_ifs with h1 h2 h3
    · simp
    · simp
    · have := ih (l - 1)
      simp only [List.length_cons]
      omega
    · simp only [List.length_singleton]
      omega

lemma print_host_len (host : List Nat) (len w : Int) (h : 0 < w) :
    (print_host host len w).length = w.toNat := by
  simp only [print_host]
  set L := (if len > w then w else len) with hL
  have hLw : L ≤ w := by rw [hL]; split <;> omega
  have h1 : (phCopy host L).length ≤ L.toNat := phCopy_length_le host L
  by_cases hz : (phCopy host L).length = 0
  · rw [if_pos hz]
    simp only [List.length_append, List.length_replicate, List.length_singleton]
    omega
  · rw [if_neg hz]
    simp only [List.length_append, List.length_replicate]
    omega

lemma truncDash_nonpos (bs : List Nat) (l : Int) (h : l ≤ 0) : truncDash bs l = [] := by
  cases bs with
  | nil => rfl
  | cons b rest => simp [truncDash, h]

lemma truncDash_length_le (bs : List Nat) (l : Int) : (truncDash bs l).length ≤ l.toNat := by
  induction bs generalizing l with
  | nil => simp [truncDash]
  | cons b rest ih =>
    simp only [truncDash]
    split_ifs with h1 h2 h3
    · simp
    · have := ih (l - 1)
      simp only [List.length_cons]
      omega
    · simp only [List.length_singleton]
      omega
    · simp

lemma scan_len (t : Nat) (bs : List Nat) :
    scanSkip t bs + (scanRest t bs).length = bs.length := by
  induction bs with
  | nil => simp [scanSkip, scanRest]
  | cons b rest ih =>
    simp only [scanSkip, scanRest]
    split_ifs with h
    · simp
    · simp only [List.length_cons]
      omega

lemma pdiBody_len (hs : List Nat) (len restlen : Int) :
    (pdiBody hs len restlen).length ≤ restlen.toNat := by
  unfold pdiBody
  split_ifs with h1 h2 h3 h4 h5 <;>
    first
      | simp
      | exact le_trans (truncDash_length_le _ _) (by omega)

lemma pdi_nonpos (host : List Nat) (len restlen : Int) (h : restlen ≤ 0) :
    pdi host len restlen = [] := by
  simp [pdi, h]

lemma pdi_len (host : List Nat) (len restlen : Int) (h : 0 < restlen) :
    (pdi host len restlen).length = restlen.toNat := by
  simp only [pdi]
  rw [if_neg (by omega)]
  have := pdiBody_len (host.take len.toNat) len restlen
  simp only [List.length_append, List.length_replicate]
  omega

/-- C6: for every width strictly greater than 0 and every input byte
sequence and source length — including an empty source, a source whose
first byte is NUL, and a source of only unprintable bytes — the output of
print_host has length exactly width. -/
theorem C6_print_host_width (host : List Nat) (len w : Int) (h : 0 < w) :
    (print_host host len w).length = w.toNat :=
  print_host_len host len w h

theorem C6_print_host_width_witness :
    0 < (10 : Int) ∧ (print_host [0] 1 10).length = (10 : Int).toNat :=
  ⟨by norm_num, C6_print_host_width [0] 1 10 (by norm_num)⟩

/-- C7: counterexample.  The claim states that both formatter operations
produce an empty output for a non-positive requested width; print_host
with width 0 emits the single dash instead (w.c lines 127-130 run
unconditionally), so the universally quantified claim is false, witnessed
at the empty source and width 0. -/
theorem C7_counterexample :
    ¬ (∀ (host : List Nat) (len w : Int), w ≤ 0 →
        print_host host len w = [] ∧ pdi host len w = []) := by
  intro h
  have h0 := (h [] 0 0 le_rfl).1
  exact absurd h0 (by decide)

/-- C7 amended: for every input and non-positive requested width,
print_display_or_interface emits nothing, while print_host emits exactly
the single dash character (and no error arises in either). -/
theorem C7_amended (host : List Nat) (len w : Int) (h : w ≤ 0) :
    pdi host len w = [] ∧ print_host host len w = [45] := by
  refine ⟨pdi_nonpos host len w h, ?_⟩
  simp only [print_host]
  rw [phCopy_nonpos host _ (by split <;> omega)]
  have hrep : (w - 1 : Int).toNat = 0 := by omega
  simp [hrep]

theorem C7_amended_witness :
    ((0 : Int) ≤ 0) ∧ pdi [65] 1 0 = [] ∧ print_host [65] 1 0 = [45] :=
  ⟨le_rfl, C7_amended [65] 1 0 le_rfl⟩

/-- C9: for every target width strictly greater than 0 and every raw
remote-address record (any conversion text and any host bytes, including
garbled content), the total output of print_from is at least 1 and at most
the target width. -/
theorem C9_print_from_bounds (ip : Bool) (conv ut_host : List Nat)
    (hostSize w : Int) (h : 0 < w) :
    1 ≤ (print_from ip conv ut_host hostSize w).length ∧
      (print_from ip conv ut_host hostSize w).length ≤ w.toNat := by
  simp only [print_from]
  cases ip with
  | false =>
    simp only [if_neg (by simp : ¬ (false = true))]
    rw [print_host_len ut_host hostSize w h]
    omega
  | true =>
    rw [if_pos rfl]
    set B := (conv.take w.toNat).takeWhile (fun b => b ≠ 0) with hB
    have hBle : B.length ≤ w.toNat := by
      rw [hB]
      exact le_trans (List.takeWhile_sublist _).length_le (List.length_take_le _ _)
    split_ifs with hz
    · simp only [List.length_append]
      by_cases hrest : 0 < w - (B.length : Int)
      · rw [pdi_len ut_host hostSize _ hrest]
        omega
      · rw [pdi_nonpos ut_host hostSize _ (by omega)]
        simp only [List.length_nil]
        omega
    · rw [print_host_len ut_host hostSize w h]
      omega

theorem C9_print_from_bounds_witness :
    0 < (16 : Int) ∧
      (1 ≤ (print_from true [49, 46, 50, 46, 51, 46, 52] [109, 58, 53] 3 16).length ∧
        (print_from true [49, 46, 50, 46, 51, 46, 52] [109, 58, 53] 3 16).length ≤ (16 : Int).toNat) :=
  ⟨by norm_num, C9_print_from_bounds true [49, 46, 50, 46, 51, 46, 52] [109, 58, 53] 3 16 (by norm_num)⟩

lemma truncDash_cons_printable (b : Nat) (rest : List Nat) (l : Int)
    (hl : 0 < l) (hb : isprintB b ∧ b ≠ 32) :
    truncDash (b :: rest) l = b :: truncDash rest (l - 1) := by
  simp only [truncDash]
  rw [if_neg (by omega), if_pos hb]

/-- C8: counterexample.  The claim states that in the single-colon (X11
display) case the emitted suffix is the content after the first colon,
the colon itself not emitted, and in the IPv6 interface case the content
after the percent sign, the percent itself not emitted.  The code starts
both print loops at the separator character (w.c lines 163 and 187 print
from disp and tmp, which point at the colon and the percent), so on the
input ":5" with rest width 10 the output begins with the colon and cannot
equal the padded truncate/dash rendering of "5" for any truncation
budget. -/
theorem C8_counterexample :
    ¬ ((∀ (host : List Nat) (len restlen : Int) (rest1 : List Nat),
          0 < restlen →
          scanRest 58 (host.take len.toNat) = 58 :: rest1 →
          (scanRest 58 rest1).head? ≠ some 58 →
          ∃ l : Int, pdi host len restlen =
            truncDash rest1 l
              ++ List.replicate (restlen - (truncDash rest1 l).length).toNat 32)
      ∧ (∀ (host : List Nat) (len restlen : Int) (rest1 rest3 : List Nat),
          0 < restlen →
          scanRest 58 (host.take len.toNat) = 58 :: rest1 →
          (scanRest 58 rest1).head? = some 58 →
          scanRest 37 (scanRest 58 rest1) = 37 :: rest3 →
          ∃ l : Int, pdi host len restlen =
            truncDash rest3 l
              ++ List.replicate (restlen - (truncDash rest3 l).length).toNat 32)) := by
  rintro ⟨hx, -⟩
  obtain ⟨l, hl⟩ := hx [58, 53] 2 10 [53] (by norm_num) (by decide) (by decide)
  have hpdi : pdi [58, 53] 2 10 = [58, 53, 32, 32, 32, 32, 32, 32, 32, 32] := by decide
  rw [hpdi] at hl
  rcases le_or_lt l 0 with h0 | h0
  · rw [truncDash_nonpos [53] l h0] at hl
    exact absurd hl (by decide)
  · rw [truncDash_cons_printable 53 [] l h0 (by decide)] at hl
    simp only [show truncDash [] (l - 1) = [] from rfl] at hl
    exact absurd hl (by decide)

/-- C8 amended: in the single-colon (X11 display) case the emitted suffix
is the first colon itself followed by the content after it, rendered by
the truncate/dash rule with budget min(bytes from the colon to the end of
the field, rest width); in the IPv6 interface case it is the percent sign
itself followed by the interface name after it, with the corresponding
budget; padding with spaces fills the rest width. -/
theorem C8_amended :
    (∀ (host : List Nat) (len restlen : Int) (rest1 : List Nat),
        0 < restlen →
        scanRest 58 (host.take len.toNat) = 58 :: rest1 →
        (scanRest 58 rest1).head? ≠ some 58 →
        pdi host len restlen =
          58 :: (truncDash rest1
              (min (len - (scanSkip 58 (host.take len.toNat) : Int)) restlen - 1)
            ++ List.replicate
              (restlen - 1 - (truncDash rest1
                (min (len - (scanSkip 58 (host.take len.toNat) : Int)) restlen
                  - 1)).length).toNat 32))
    ∧ (∀ (host : List Nat) (len restlen : Int) (rest1 rest3 : List Nat),
        0 < restlen →
        scanRest 58 (host.take len.toNat) = 58 :: rest1 →
        (scanRest 58 rest1).head? = some 58 →
        scanRest 37 (scanRest 58 rest1) = 37 :: rest3 →
        pdi host len restlen =
          37 :: (truncDash rest3
              (min (len - ((scanSkip 58 (host.take len.toNat) : Int) + 1
                  + (scanSkip 58 rest1 : Int)
                  + (scanSkip 37 (scanRest 58 rest1) : Int))) restlen - 1)
            ++ List.replicate
              (restlen - 1 - (truncDash rest3
                (min (len - ((scanSkip 58 (host.take len.toNat) : Int) + 1
                    + (scanSkip 58 rest1 : Int)
                    + (scanSkip 37 (scanRest 58 rest1) : Int))) restlen
                  - 1)).length).toNat 32)) := by
  constructor
  · intro host len restlen rest1 hr h1 h2
    have hsc := scan_len 58 (host.take len.toNat)
    rw [h1] at hsc
    simp only [List.length_cons] at hsc
    have hhs : (host.take len.toNat).length ≤ len.toNat := List.length_take_le _ _
    have hk1 : (scanSkip 58 (host.take len.toNat) : Int) < len := by omega
    have hmin : 0 < min (len - (scanSkip 58 (host.take len.toNat) : Int)) restlen :=
      lt_min (by omega) hr
    simp only [pdi]
    rw [if_neg (by omega)]
    have hbody : pdiBody (host.take len.toNat) len restlen
        = truncDash (58 :: rest1)
            (min (len - (scanSkip 58 (host.take len.toNat) : Int)) restlen) := by
      simp only [pdiBody]
      rw [h1]
      simp only [List.head?_cons, List.tail_cons, if_true]
      rw [if_neg h2]
      congr 1
      rcases le_or_lt (len - (scanSkip 58 (host.take len.toNat) : Int)) restlen with hc | hc
      · rw [if_neg (by omega), min_eq_left hc]
      · rw [if_pos hc, min_eq_right (by omega)]
    rw [hbody]
    rw [truncDash_cons_printable 58 rest1 _ hmin (by decide)]
    simp only [List.cons_append, List.length_cons]
    congr 3
    omega
  · intro host len restlen rest1 rest3 hr h1 h2 h3
    have hsc1 := scan_len 58 (host.take len.toNat)
    rw [h1] at hsc1
    simp only [List.length_cons] at hsc1
    have hsc2 := scan_len 58 rest1
    have hsc3 := scan_len 37 (scanRest 58 rest1)
    rw [h3] at hsc3
    simp only [List.length_cons] at hsc3
    have hhs : (host.take len.toNat).length ≤ len.toNat := List.length_take_le _ _
    have hj : ((scanSkip 58 (host.take len.toNat) : Int) + 1
        + (scanSkip 58 rest1 : Int) + (scanSkip 37 (scanRest 58 rest1) : Int)) < len := by
      omega
    have hmin : 0 < min (len - ((scanSkip 58 (host.take len.toNat) : Int) + 1
        + (scanSkip 58 rest1 : Int) + (scanSkip 37 (scanRest 58 rest1) : Int))) restlen :=
      lt_min (by omega) hr
    simp only [pdi]
    rw [if_neg (by omega)]
    have hbody : pdiBody (host.take len.toNat) len restlen
        = truncDash (37 :: rest3)
            (min (len - ((scanSkip 58 (host.take len.toNat) : Int) + 1
              + (scanSkip 58 rest1 : Int)
              + (scanSkip 37 (scanRest 58 rest1) : Int))) restlen) := by
      simp only [pdiBody]
      rw [h1]
      simp only [List.head?_cons, List.tail_cons, if_true]
      rw [if_pos h2, h3]
      simp only [List.head?_cons, if_true]
      congr 1
      rcases le_or_lt (len - ((scanSkip 58 (host.take len.toNat) : Int) + 1
          + (scanSkip 58 rest1 : Int)
          + (scanSkip 37 (scanRest 58 rest1) : Int))) restlen with hc | hc
      · rw [if_neg (by omega), min_eq_left hc]
      · rw [if_pos hc, min_eq_right (by omega)]
    rw [hbody]
    rw [truncDash_cons_printable 37 rest3 _ hmin (by decide)]
    simp only [List.cons_append, List.length_cons]
    congr 3
    omega

theorem C8_amended_witness :
    pdi [58, 53] 2 10 = [58, 53, 32, 32, 32, 32, 32, 32, 32, 32] ∧
      pdi [58, 58, 49, 37, 101, 120] 6 10
        = [37, 101, 120, 32, 32, 32, 32, 32, 32, 32] := by
  constructor
  · rw [C8_amended.1 [58, 53] 2 10 [53] (by norm_num) (by decide) (by decide)]
    decide
  · rw [C8_amended.2 [58, 58, 49, 37, 101, 120] 6 10 [58, 49, 37, 101, 120]
      [101, 120] (by norm_num) (by decide) (by decide) (by decide)]
    decide

/- Helper lemmas about the selector. -/

lemma fbStep_jcpu (ig : Bool) (uid : Nat) (utp tty : Int) (s : FBState) (p : ProcRec) :
    (fbStep ig uid utp tty s p).jcpu
      = if p.tty = tty then (s.jcpu + p.tics) % U64 else s.jcpu := by
  simp only [fbStep, leaderStage, interimStage, filterStage]
  split_ifs <;> simp_all

lemma foldl_jcpu (ig : Bool) (uid : Nat) (utp tty : Int) (l : List ProcRec) :
    ∀ (s : FBState), s.jcpu < U64 →
      (l.foldl (fbStep ig uid utp tty) s).jcpu
        = (s.jcpu + ((l.filter (fun p => p.tty = tty)).map ProcRec.tics).sum) % U64 := by
  induction l with
  | nil =>
    intro s hs
    simpa using (Nat.mod_eq_of_lt hs).symm
  | cons p l ih =>
    intro s hs
    simp only [List.foldl_cons]
    by_cases h : p.tty = tty
    · rw [ih _ (by rw [fbStep_jcpu, if_pos h]; exact Nat.mod_lt _ (by simp [U64]))]
      rw [fbStep_jcpu, if_pos h]
      simp only [List.filter_cons, h, if_pos, List.map_cons, List.sum_cons,
        decide_True, ite_true]
      simp only [U64]
      omega
    · rw [ih _ (by rw [fbStep_jcpu, if_neg h]; exact hs)]
      rw [fbStep_jcpu, if_neg h]
      simp [List.filter_cons, h]

/-- C1: counterexample.  The claim states that the returned jcpu equals
the exact sum of the cumulative CPU ticks of the tty-matching records;
the accumulator at w.c line 496 is an unsigned long long and wraps modulo
2^64, so two tty-matching records with ticks 2^63 and 2^63 + 1 produce
jcpu = 1, not their exact sum. -/
theorem C1_counterexample :
    ¬ (∀ (ig : Bool) (uid : Nat) (utp tty : Int) (snap : List ProcRec),
        (findBestProc ig (some uid) utp tty snap).jcpu
          = ((snap.filter (fun p => p.tty = tty)).map ProcRec.tics).sum) := by
  intro h
  have h0 := h false 5 99 3
    [⟨1, 0, 50, 9, 9, 4, 6, 3, 9223372036854775808, [65]⟩,
     ⟨2, 0, 60, 5, 5, 7, 7, 3, 9223372036854775809, [66]⟩]
  exact absurd h0 (by decide)

/-- C1 amended: for every session and snapshot, the jcpu value returned
by find_best_proc equals the sum of the cumulative CPU ticks of exactly
the snapshot records whose controlling-terminal device equals the session
tty device, reduced modulo 2^64 (the unsigned long long accumulator
wraps), independent of each record's uids, of the ignoreuser flag, and of
the foreground filter. -/
theorem C1_jcpu_total_mod (ig : Bool) (uid : Nat) (utp tty : Int) (snap : List ProcRec) :
    (findBestProc ig (some uid) utp tty snap).jcpu
      = ((snap.filter (fun p => p.tty = tty)).map ProcRec.tics).sum % U64 := by
  unfold findBestProc
  rw [if_neg (by simp),
    foldl_jcpu ig ((some uid).getD 4294967295) utp tty snap fbInit
      (by simp [fbInit, U64])]
  simp [fbInit]

lemma fbStep_found (ig : Bool) (uid : Nat) (utp tty : Int) (s : FBState) (p : ProcRec) :
    (fbStep ig uid utp tty s p).found = (s.found || decide (p.tgid = utp)) := by
  simp only [fbStep, leaderStage, interimStage, filterStage]
  split_ifs <;> simp_all

lemma foldl_found (ig : Bool) (uid : Nat) (utp tty : Int) (l : List ProcRec) :
    ∀ (s : FBState),
      (l.foldl (fbStep ig uid utp tty) s).found
        = (s.found || l.any (fun p => decide (p.tgid = utp))) := by
  induction l with
  | nil => intro s; simp
  | cons p l ih =>
    intro s
    simp only [List.foldl_cons, List.any_cons]
    rw [ih, fbStep_found]
    cases s.found <;> simp

/-- C3: provided the session uid was resolved (or the user filter is
disabled), find_best_proc reports the leader as found iff some snapshot
record has thread-group id equal to the session leader pid, and when the
leader is not found showinfo emits nothing for the session. -/
theorem C3_leader_liveness (ig : Bool) (uidOpt : Option Nat) (utp tty : Int)
    (snap : List ProcRec) (h : ig = true ∨ uidOpt ≠ none) :
    ((findBestProc ig uidOpt utp tty snap).found = true ↔ ∃ p ∈ snap, p.tgid = utp)
      ∧ ((findBestProc ig uidOpt utp tty snap).found = false →
          showinfoEmits ig uidOpt utp tty snap = false) := by
  have hne : ¬ (ig = false ∧ uidOpt = none) := by
    rintro ⟨h1, h2⟩
    rcases h with h | h
    · rw [h1] at h; cases h
    · exact h h2
  constructor
  · unfold findBestProc
    rw [if_neg hne, foldl_found]
    simp [fbInit, List.any_eq_true]
  · intro hf
    unfold showinfoEmits
    exact hf

theorem C3_leader_liveness_witness :
    ((false = true) ∨ (some 0 : Option Nat) ≠ none) ∧
      (((findBestProc false (some 0) 7 3 [⟨2, 7, 10, 5, 5, 4, 4, 3, 6, [65]⟩]).found = true
          ↔ ∃ p ∈ [(⟨2, 7, 10, 5, 5, 4, 4, 3, 6, [65]⟩ : ProcRec)], p.tgid = 7)
        ∧ ((findBestProc false (some 0) 7 3 [⟨2, 7, 10, 5, 5, 4, 4, 3, 6, [65]⟩]).found = false →
            showinfoEmits false (some 0) 7 3 [⟨2, 7, 10, 5, 5, 4, 4, 3, 6, [65]⟩] = false)) :=
  ⟨Or.inr (by simp), C3_leader_liveness false (some 0) 7 3 _ (Or.inr (by simp))⟩

/-- C4: counterexample.  The claim states that the interim step updates
secondbest (and possibly the candidate) exactly when the record start time
is strictly greater than the current secondbest.  The code condition (w.c
line 497) is the negation of (secondbest_time nonzero and start ≤
secondbest_time), which also fires when secondbest_time is 0 and the start
time is 0: on the initial state and a record with start time 0 the
candidate is replaced although 0 is not strictly greater than 0. -/
theorem C4_counterexample :
    ¬ (∀ (s : FBState) (p : ProcRec),
        interimStage p s =
          if s.secondbest < p.start then
            if s.cmdline = [45] then
              { s with secondbest := p.start, cmdline := strncpyCmd p.cmdline,
                       pid := p.pid, pcpu := p.tics, writer := CandWriter.interim }
            else { s with secondbest := p.start }
          else s) := by
  intro h
  have h0 := h fbInit ⟨7, 0, 0, 0, 0, 0, 0, 0, 3, [66]⟩
  exact absurd h0 (by decide)

/-- C4 amended: the interim step updates secondbest to the record start
time exactly when secondbest is still zero or the start time is strictly
greater than it, and at such an update the candidate fields are replaced
exactly when the current candidate command line is still the unset
placeholder. -/
theorem C4_amended (s : FBState) (p : ProcRec) :
    interimStage p s =
      if s.secondbest = 0 ∨ s.secondbest < p.start then
        if s.cmdline = [45] then
          { s with secondbest := p.start, cmdline := strncpyCmd p.cmdline,
                   pid := p.pid, pcpu := p.tics, writer := CandWriter.interim }
        else { s with secondbest := p.start }
      else s := by
  simp only [interimStage]
  by_cases h : s.secondbest = 0 ∨ s.secondbest < p.start
  · rw [if_pos (by omega : ¬ (s.secondbest ≠ 0 ∧ p.start ≤ s.secondbest)), if_pos h]
  · rw [if_neg (by omega : ¬ ¬ (s.secondbest ≠ 0 ∧ p.start ≤ s.secondbest)), if_neg h]

lemma fbStep_pcpu (ig : Bool) (uid : Nat) (utp tty : Int) (s : FBState) (p : ProcRec)
    (acc : Nat) (h : s.writer = CandWriter.fgFilter → s.pcpu ≤ acc) :
    (fbStep ig uid utp tty s p).writer = CandWriter.fgFilter →
      (fbStep ig uid utp tty s p).pcpu
        ≤ acc + (if p.tty = tty then p.tics else 0) := by
  simp only [fbStep, leaderStage, interimStage, filterStage]
  split_ifs <;> intro hw <;> simp_all <;> omega

lemma foldl_pcpu (ig : Bool) (uid : Nat) (utp tty : Int) (l : List ProcRec) :
    ∀ (s : FBState) (acc : Nat),
      (s.writer = CandWriter.fgFilter → s.pcpu ≤ acc) →
      ((l.foldl (fbStep ig uid utp tty) s).writer = CandWriter.fgFilter →
        (l.foldl (fbStep ig uid utp tty) s).pcpu
          ≤ acc + ((l.filter (fun p => p.tty = tty)).map ProcRec.tics).sum) := by
  induction l with
  | nil => intro s acc h; simpa using h
  | cons p l ih =>
    intro s acc h hw
    simp only [List.foldl_cons] at hw ⊢
    have h3 := ih (fbStep ig uid utp tty s p)
      (acc + (if p.tty = tty then p.tics else 0))
      (fbStep_pcpu ig uid utp tty s p acc h) hw
    by_cases htty : p.tty = tty
    · simp [List.filter_cons, htty] at h3 ⊢
      omega
    · simp [List.filter_cons, htty] at h3 ⊢
      omega

/-- C5: counterexample.  The claim states that a foreground-filter
candidate always satisfies pcpu ≤ jcpu; but the jcpu accumulator (w.c
line 496, unsigned long long) wraps modulo 2^64, so with tty-matching
ticks 2^63 and then a filter-promoted record of ticks 2^63 + 1 the
program returns jcpu = 1 while pcpu = 2^63 + 1. -/
theorem C5_counterexample :
    ¬ (∀ (ig : Bool) (uidOpt : Option Nat) (utp tty : Int) (snap : List ProcRec),
        (findBestProc ig uidOpt utp tty snap).writer = CandWriter.fgFilter →
        (findBestProc ig uidOpt utp tty snap).pcpu
          ≤ (findBestProc ig uidOpt utp tty snap).jcpu) := by
  intro h
  have h0 := h false (some 5) 99 3
    [⟨1, 0, 50, 9, 9, 4, 6, 3, 9223372036854775808, [65]⟩,
     ⟨2, 0, 60, 5, 5, 7, 7, 3, 9223372036854775809, [66]⟩] (by decide)
  exact absurd h0 (by decide)

/-- C5 amended: whenever the candidate returned by find_best_proc was
last written by the foreground-filter promotion and the exact sum of the
tty-matching records' CPU ticks is below 2^64 (the 64-bit jcpu
accumulator does not wrap), the returned jcpu is at least the returned
pcpu, because the promoted record shares the session tty device and its
ticks were added to jcpu in the same iteration. -/
theorem C5_amended (ig : Bool) (uidOpt : Option Nat) (utp tty : Int)
    (snap : List ProcRec)
    (hw : (findBestProc ig uidOpt utp tty snap).writer = CandWriter.fgFilter)
    (hsum : ((snap.filter (fun p => p.tty = tty)).map ProcRec.tics).sum < U64) :
    (findBestProc ig uidOpt utp tty snap).pcpu
      ≤ (findBestProc ig uidOpt utp tty snap).jcpu := by
  by_cases hc : ig = false ∧ uidOpt = none
  · simp only [findBestProc, if_pos hc] at hw
    exact absurd hw (by decide)
  · simp only [findBestProc, if_neg hc] at hw ⊢
    have hp := foldl_pcpu ig (uidOpt.getD 4294967295) utp tty snap fbInit 0
      (fun hx => absurd hx (by decide)) hw
    rw [foldl_jcpu ig (uidOpt.getD 4294967295) utp tty snap fbInit
      (by simp [fbInit, U64])]
    simp only [fbInit, Nat.zero_add] at hp ⊢
    rw [Nat.mod_eq_of_lt hsum]
    exact hp

theorem C5_amended_witness :
    ((findBestProc false (some 5) 99 3 [⟨2, 1, 10, 5, 5, 4, 4, 3, 6, [65]⟩]).writer
        = CandWriter.fgFilter
      ∧ (([(⟨2, 1, 10, 5, 5, 4, 4, 3, 6, [65]⟩ : ProcRec)].filter
            (fun p => p.tty = 3)).map ProcRec.tics).sum < U64)
    ∧ (findBestProc false (some 5) 99 3 [⟨2, 1, 10, 5, 5, 4, 4, 3, 6, [65]⟩]).pcpu
        ≤ (findBestProc false (some 5) 99 3 [⟨2, 1, 10, 5, 5, 4, 4, 3, 6, [65]⟩]).jcpu :=
  ⟨⟨by decide, by decide⟩, C5_amended false (some 5) 99 3 _ (by decide) (by decide)⟩

lemma fbStep_cand (ig : Bool) (uid : Nat) (utp tty : Int) (s : FBState) (p : ProcRec) :
    ((fbStep ig uid utp tty s p).pid = s.pid
      ∧ (fbStep ig uid utp tty s p).pcpu = s.pcpu
      ∧ (fbStep ig uid utp tty s p).cmdline = s.cmdline)
    ∨ ((fbStep ig uid utp tty s p).pid = p.pid
      ∧ (fbStep ig uid utp tty s p).pcpu = p.tics
      ∧ (fbStep ig uid utp tty s p).cmdline = strncpyCmd p.cmdline) := by
  simp only [fbStep, leaderStage, interimStage, filterStage]
  split_ifs <;> simp_all

lemma foldl_cand (ig : Bool) (uid : Nat) (utp tty : Int) (l : List ProcRec) :
    ∀ (s : FBState),
      (((l.foldl (fbStep ig uid utp tty) s).pid = s.pid
         ∧ (l.foldl (fbStep ig uid utp tty) s).pcpu = s.pcpu
         ∧ (l.foldl (fbStep ig uid utp tty) s).cmdline = s.cmdline)
        ∨ ∃ p ∈ l,
            ((l.foldl (fbStep ig uid utp tty) s).pid = p.pid
              ∧ (l.foldl (fbStep ig uid utp tty) s).pcpu = p.tics
              ∧ (l.foldl (fbStep ig uid utp tty) s).cmdline = strncpyCmd p.cmdline)) := by
  induction l with
  | nil => intro s; left; simp
  | cons q l ih =>
    intro s
    simp only [List.foldl_cons]
    rcases fbStep_cand ig uid utp tty s q with ⟨h1, h2, h3⟩ | ⟨h1, h2, h3⟩
    · rcases ih (fbStep ig uid utp tty s q) with ⟨g1, g2, g3⟩ | ⟨p, hp, g⟩
      · left; exact ⟨g1.trans h1, g2.trans h2, g3.trans h3⟩
      · right; exact ⟨p, List.mem_cons_of_mem _ hp, g⟩
    · rcases ih (fbStep ig uid utp tty s q) with ⟨g1, g2, g3⟩ | ⟨p, hp, g⟩
      · right; exact ⟨q, List.mem_cons_self _ _, g1.trans h1, g2.trans h2, g3.trans h3⟩
      · right; exact ⟨p, List.mem_cons_of_mem _ hp, g⟩

/-- C10: the candidate fields returned by find_best_proc (pid, pcpu,
command line) are either all still the initial defaults (pid -1, zero
ticks, placeholder command line) or were all copied together from one and
the same snapshot record; no mixing of fields of different processes can
occur. -/
theorem C10_candidate_integrity (ig : Bool) (uidOpt : Option Nat) (utp tty : Int)
    (snap : List ProcRec) :
    ((findBestProc ig uidOpt utp tty snap).pid = -1
      ∧ (findBestProc ig uidOpt utp tty snap).pcpu = 0
      ∧ (findBestProc ig uidOpt utp tty snap).cmdline = [45])
    ∨ ∃ p ∈ snap,
        ((findBestProc ig uidOpt utp tty snap).pid = p.pid
          ∧ (findBestProc ig uidOpt utp tty snap).pcpu = p.tics
          ∧ (findBestProc ig uidOpt utp tty snap).cmdline = strncpyCmd p.cmdline) := by
  by_cases hc : ig = false ∧ uidOpt = none
  · left
    simp [findBestProc, hc, fbInit]
  · simp only [findBestProc, if_neg hc]
    rcases foldl_cand ig (uidOpt.getD 4294967295) utp tty snap fbInit with ⟨h1, h2, h3⟩ | h
    · left
      refine ⟨?_, ?_, ?_⟩
      · simpa [fbInit] using h1
      · simpa [fbInit] using h2
      · simpa [fbInit] using h3
    · right
      exact h

/-- C2: counterexample.  In the Scenario C configuration the claim picks
record A for either order; but when record A's own command line is the
single-dash placeholder, the candidate buffer still looks unset after A is
promoted, so record B (newer start time, shared tty) overwrites the
candidate through the interim promotion (w.c lines 499-503) and is
returned instead of A. -/
theorem C2_counterexample :
    ¬ (∀ (uid : Nat) (utp tty : Int) (A B : ProcRec),
        A.tty = tty → B.tty = tty →
        (A.euid = uid ∨ A.ruid = uid) → A.pgrp = A.tpgid → A.start = 200 →
        B.euid ≠ uid → B.ruid ≠ uid → B.start = 300 →
        ((findBestProc false (some uid) utp tty [A, B]).pid = A.pid
          ∧ (findBestProc false (some uid) utp tty [A, B]).pcpu = A.tics
          ∧ (findBestProc false (some uid) utp tty [A, B]).cmdline = strncpyCmd A.cmdline)
        ∧ ((findBestProc false (some uid) utp tty [B, A]).pid = A.pid
          ∧ (findBestProc false (some uid) utp tty [B, A]).pcpu = A.tics
          ∧ (findBestProc false (some uid) utp tty [B, A]).cmdline = strncpyCmd A.cmdline)) := by
  intro h
  have h0 := (h 1 99 5 ⟨10, 0, 200, 1, 1, 7, 7, 5, 20, [45]⟩
      ⟨11, 0, 300, 2, 3, 8, 9, 5, 30, [66]⟩
      rfl rfl (Or.inl rfl) rfl rfl (by decide) (by decide) rfl).1.1
  exact absurd h0 (by decide)

/-- C2 amended: in the Scenario C configuration, and provided additionally
that record A's stored command line is not itself the single-dash
placeholder and that record B is not the session leader, find_best_proc
returns record A's pid, CPU ticks and (truncated) command line as the
candidate, for either iteration order of the two records. -/
theorem C2_amended (uid : Nat) (utp tty : Int) (A B : ProcRec)
    (hA : A.tty = tty) (hB : B.tty = tty)
    (hAu : A.euid = uid ∨ A.ruid = uid) (hAg : A.pgrp = A.tpgid) (hAs : A.start = 200)
    (hBe : B.euid ≠ uid) (hBr : B.ruid ≠ uid) (hBs : B.start = 300)
    (hAc : strncpyCmd A.cmdline ≠ [45]) (hBl : B.tgid ≠ utp) :
    ((findBestProc false (some uid) utp tty [A, B]).pid = A.pid
      ∧ (findBestProc false (some uid) utp tty [A, B]).pcpu = A.tics
      ∧ (findBestProc false (some uid) utp tty [A, B]).cmdline = strncpyCmd A.cmdline)
    ∧ ((findBestProc false (some uid) utp tty [B, A]).pid = A.pid
      ∧ (findBestProc false (some uid) utp tty [B, A]).pcpu = A.tics
      ∧ (findBestProc false (some uid) utp tty [B, A]).cmdline = strncpyCmd A.cmdline) := by
  rcases hAu with hAe | hAr <;>
    by_cases hAl : A.tgid = utp <;>
      simp_all [findBestProc, fbStep, leaderStage, interimStage, filterStage, fbInit,
        Ne.symm hBe, Ne.symm hBr]

theorem C2_amended_witness :
    strncpyCmd [97] ≠ [45] ∧
      ((findBestProc false (some 1) 99 5
          [⟨10, 0, 200, 1, 1, 7, 7, 5, 20, [97]⟩,
           ⟨11, 0, 300, 2, 3, 8, 9, 5, 30, [66]⟩]).pid = 10
        ∧ (findBestProc false (some 1) 99 5
            [⟨11, 0, 300, 2, 3, 8, 9, 5, 30, [66]⟩,
             ⟨10, 0, 200, 1, 1, 7, 7, 5, 20, [97]⟩]).pid = 10) := by
  have h := C2_amended 1 99 5 ⟨10, 0, 200, 1, 1, 7, 7, 5, 20, [97]⟩
    ⟨11, 0, 300, 2, 3, 8, 9, 5, 30, [66]⟩
    rfl rfl (Or.inl rfl) rfl rfl (by decide) (by decide) rfl (by decide) (by decide)
  exact ⟨by decide, h.1.1, h.2.1⟩
